import Mathlib

/-!
Verification of the pharmacy ranking and best-option selection engine.

The definitions below are a shallow embedding of `src/med/services/pharmacyService.ts`
(haversine distance, candidate selection, price/stock synthesis, best-option resolver)
and of the `sortedPharmacies` reorder step of the application component.
JavaScript numbers are modelled as real numbers; `Math.random()` draws are passed in
explicitly as real-valued streams, constrained to `[0, 1)` where a theorem needs the
`Math.random` contract.
-/

/-- `Location` from `pharmacyService.ts`: `{ lat, lon }` in decimal degrees. -/
structure Location where
  lat : ℝ
  lon : ℝ

/-- `StockStatus` enum from `types.ts`. -/
inductive StockStatus where
  | InStock
  | LowStock
  | OutOfStock
deriving DecidableEq, Repr

/-- A record of the static directory `VERIFIED_PHARMACIES_IN_BANGALORE`. -/
structure PharmacyRecord where
  id : ℕ
  name : String
  address : String
  phone : String
  lat : ℝ
  lon : ℝ

/-- The `Pharmacy` interface from `types.ts` (a per-query result view). -/
structure Pharmacy where
  id : ℕ
  name : String
  address : String
  phone : String
  lat : ℝ
  lon : ℝ
  distance : ℝ
  price : ℝ
  priceUnit : String
  stock : StockStatus
  isBestOption : Bool

/-- `SortKey` from `types.ts`. -/
inductive SortKey where
  | price
  | distance
  | availability

/-- The static pharmacy directory literal from `pharmacyService.ts`. -/
def VERIFIED_PHARMACIES_IN_BANGALORE : List PharmacyRecord := [
  { id := 21, name := "Apollo Pharmacy", address := "Mysore Road, Kengeri Satellite Town", phone := "080-2848-1122", lat := 12.9189, lon := 77.4856 },
  { id := 22, name := "Medplus Pharmacy", address := "Kengeri Main Rd, Opposite Kengeri Bus Terminal", phone := "080-2848-3344", lat := 12.9155, lon := 77.4808 },
  { id := 30, name := "Sri Maruthi Pharma", address := "1st Main Road, Kengeri Upanagara", phone := "080-2848-5566", lat := 12.9213, lon := 77.4842 },
  { id := 31, name := "HealthFirst Pharmacy", address := "Kommaghatta Main Rd, Kengeri Hobli", phone := "080-2848-7788", lat := 12.9252, lon := 77.4759 },
  { id := 23, name := "Apollo Pharmacy", address := "Uttarahalli Main Rd, Chikkalasandra", phone := "080-2673-5050", lat := 12.9077, lon := 77.5451 },
  { id := 24, name := "Sri Sai Medical & General Stores", address := "Subramanyapura Main Road", phone := "080-2639-1212", lat := 12.9015, lon := 77.5490 },
  { id := 32, name := "MedPlus Pharmacy", address := "Dr Vishnuvardhan Rd, AGS Layout", phone := "080-2639-4455", lat := 12.9058, lon := 77.5401 },
  { id := 33, name := "Jan Aushadhi Kendra", address := "Padmanabhanagar, Near Uttarahalli", phone := "080-2639-8899", lat := 12.9125, lon := 77.5523 },
  { id := 25, name := "Apollo Pharmacy", address := "Near RR Nagar Arch, Mysore Road", phone := "080-2860-9090", lat := 12.9265, lon := 77.5188 },
  { id := 26, name := "Medplus Pharmacy", address := "8th Cross, BEML Layout, RR Nagar", phone := "080-2860-7070", lat := 12.9303, lon := 77.5102 },
  { id := 27, name := "Dava Discount", address := "Ideal Homes Township, RR Nagar", phone := "080-2861-1234", lat := 12.9331, lon := 77.5145 },
  { id := 34, name := "Apollo Pharmacy - BEML Layout", address := "9th Main Rd, BEML Layout, RR Nagar", phone := "080-2860-3030", lat := 12.9298, lon := 77.5113 },
  { id := 18, name := "Apollo Pharmacy", address := "24th Main Rd, Banashankari 2nd Stage", phone := "080-2671-5555", lat := 12.9251, lon := 77.5469 },
  { id := 28, name := "Wellness Forever", address := "Outer Ring Rd, Banashankari 3rd Stage", phone := "080-2679-8899", lat := 12.9157, lon := 77.5571 },
  { id := 29, name := "MedPlus Pharmacy", address := "Kathriguppe Main Rd, Banashankari 3rd Stage", phone := "080-2672-2200", lat := 12.9105, lon := 77.5603 },
  { id := 36, name := "Sri Guru Medicals", address := "Near BDA Complex, BSK 2nd Stage", phone := "080-2671-8888", lat := 12.9285, lon := 77.5504 },
  { id := 37, name := "Vivek Pharma", address := "Kadirenahalli Cross, Banashankari", phone := "080-2671-9999", lat := 12.9193, lon := 77.5620 },
  { id := 1, name := "Apollo Pharmacy - Jayanagar", address := "Jayanagar 9th Block, Bangalore", phone := "080-2663-0919", lat := 12.9248, lon := 77.5843 },
  { id := 2, name := "Wellness Forever - Koramangala", address := "Koramangala 4th Block, Bangalore", phone := "080-4110-2222", lat := 12.9345, lon := 77.6264 },
  { id := 3, name := "MedPlus Pharmacy - Indiranagar", address := "Indiranagar, 100 Feet Rd, Bangalore", phone := "080-4092-7575", lat := 12.9784, lon := 77.6408 }]

/-- Model of JavaScript `String.prototype.toLowerCase` as a character-wise lowering.
This is exact for ASCII names (all reference-table keys are ASCII); JavaScript applies
the full Unicode case mapping over UTF-16 units, which can change a string's length
(e.g. the lowercase of U+0130 has two units), so no theorem below claims that
lowercasing preserves the length of the original name. -/
def toLowerStr (s : String) : String := ⟨s.data.map Char.toLower⟩

/-- Outcome of the JavaScript bracket access `MEDICINE_PRICES[s]` on the plain object
literal: an own numeric entry, an inherited `Object.prototype` property (a truthy
non-number — a function, or the object returned by the `__proto__` accessor), or
`undefined`. -/
inductive PriceLookup where
  | ownNum : ℝ → PriceLookup
  | protoVal : PriceLookup
  | undef : PriceLookup

/-- The own property names of `Object.prototype`, all reachable by a string bracket
access on a plain object and all bound to truthy non-number values. -/
def OBJECT_PROTOTYPE_KEYS : List String :=
  ["constructor", "hasOwnProperty", "isPrototypeOf", "propertyIsEnumerable",
   "toLocaleString", "toString", "valueOf", "__defineGetter__", "__defineSetter__",
   "__lookupGetter__", "__lookupSetter__", "__proto__"]

/-- The `MEDICINE_PRICES` lookup of `pharmacyService.ts` as the JavaScript bracket
access it is: own entries first, then the prototype chain, else `undefined`. -/
noncomputable def MEDICINE_PRICES (s : String) : PriceLookup :=
  if s = "paracetamol" then PriceLookup.ownNum 30
  else if s = "ibuprofen" then PriceLookup.ownNum 45
  else if s = "metformin" then PriceLookup.ownNum 60
  else if s = "atorvastatin" then PriceLookup.ownNum 80
  else if s = "amoxicillin" then PriceLookup.ownNum 75
  else if s = "cetirizine" then PriceLookup.ownNum 25
  else if s = "dolo 650" then PriceLookup.ownNum 31
  else if s ∈ OBJECT_PROTOTYPE_KEYS then PriceLookup.protoVal
  else PriceLookup.undef

/-- Model of JavaScript `Math.atan2` on real arguments (quadrant-corrected arctangent). -/
noncomputable def atan2 (y x : ℝ) : ℝ :=
  if 0 < x then Real.arctan (y / x)
  else if x < 0 then
    if 0 ≤ y then Real.arctan (y / x) + Real.pi
    else Real.arctan (y / x) - Real.pi
  else if 0 < y then Real.pi / 2
  else if y < 0 then -(Real.pi / 2)
  else 0

/-- The argument `a` fed to the square roots inside `haversineDistance`. -/
noncomputable def haversineSqrtArg (loc1 loc2 : Location) : ℝ :=
  let dLat := (loc2.lat - loc1.lat) * Real.pi / 180
  let dLon := (loc2.lon - loc1.lon) * Real.pi / 180
  Real.sin (dLat / 2) * Real.sin (dLat / 2) +
    Real.cos (loc1.lat * Real.pi / 180) * Real.cos (loc2.lat * Real.pi / 180) *
      (Real.sin (dLon / 2) * Real.sin (dLon / 2))

/-- `haversineDistance` from `pharmacyService.ts`, over real numbers. -/
noncomputable def haversineDistance (loc1 loc2 : Location) : ℝ :=
  let a := haversineSqrtArg loc1 loc2
  let c := 2 * atan2 (Real.sqrt a) (Real.sqrt (1 - a))
  6371 * c

theorem haversineSqrtArg_mem (loc1 loc2 : Location) :
    0 ≤ haversineSqrtArg loc1 loc2 ∧ haversineSqrtArg loc1 loc2 ≤ 1 := by
  unfold haversineSqrtArg
  set X := (loc2.lat - loc1.lat) * Real.pi / 180 / 2 with hX
  set Y := (loc2.lon - loc1.lon) * Real.pi / 180 / 2 with hY
  set P := loc1.lat * Real.pi / 180 with hP
  set Q := loc2.lat * Real.pi / 180 with hQ
  have hQP : Q - P = 2 * X := by rw [hX, hP, hQ]; ring
  have hdiff : Real.cos (Q - P) = Real.cos Q * Real.cos P + Real.sin Q * Real.sin P :=
    Real.cos_sub Q P
  have hsum : Real.cos (Q + P) = Real.cos Q * Real.cos P - Real.sin Q * Real.sin P :=
    Real.cos_add Q P
  have h2X : Real.cos (2 * X) = 1 - 2 * Real.sin X ^ 2 := by
    have h1 := Real.cos_two_mul X
    have h2 := Real.sin_sq X
    linarith
  have hprod : Real.cos P * Real.cos Q =
      (1 - 2 * Real.sin X ^ 2 + Real.cos (Q + P)) / 2 := by
    rw [hQP] at hdiff
    rw [h2X] at hdiff
    linarith
  have ht0 : (0:ℝ) ≤ Real.sin X ^ 2 := sq_nonneg _
  have ht1 : Real.sin X ^ 2 ≤ 1 := Real.sin_sq_le_one X
  have hs0 : (0:ℝ) ≤ Real.sin Y ^ 2 := sq_nonneg _
  have hs1 : Real.sin Y ^ 2 ≤ 1 := Real.sin_sq_le_one Y
  have hc0 : -1 ≤ Real.cos (Q + P) := Real.neg_one_le_cos _
  have hc1 : Real.cos (Q + P) ≤ 1 := Real.cos_le_one _
  simp only [← pow_two]
  constructor
  · nlinarith [mul_nonneg ht0 (by linarith : (0:ℝ) ≤ 1 - Real.sin Y ^ 2),
      mul_nonneg hs0 (by linarith : (0:ℝ) ≤ 1 + Real.cos (Q + P))]
  · nlinarith [mul_nonneg ht0 (by linarith : (0:ℝ) ≤ 1 - Real.sin Y ^ 2),
      mul_nonneg hs0 (by linarith : (0:ℝ) ≤ 1 + Real.cos (Q + P)),
      mul_nonneg (by linarith : (0:ℝ) ≤ 1 - Real.sin X ^ 2)
        (by linarith : (0:ℝ) ≤ 1 - Real.sin Y ^ 2)]

theorem atan2_nonneg {y x : ℝ} (hy : 0 ≤ y) (hx : 0 ≤ x) : 0 ≤ atan2 y x := by
  unfold atan2
  split_ifs with h1 h2 h3 h4
  all_goals try linarith [Real.pi_pos]
  all_goals
    have hq : 0 ≤ y / x := div_nonneg hy hx
    have harc := Real.arctan_strictMono.monotone hq
    rwa [Real.arctan_zero] at harc

theorem haversineDistance_nonneg (loc1 loc2 : Location) :
    0 ≤ haversineDistance loc1 loc2 := by
  unfold haversineDistance
  have h := atan2_nonneg (Real.sqrt_nonneg (haversineSqrtArg loc1 loc2))
    (Real.sqrt_nonneg (1 - haversineSqrtArg loc1 loc2))
  positivity

theorem haversineSqrtArg_self (loc : Location) : haversineSqrtArg loc loc = 0 := by
  unfold haversineSqrtArg
  simp

theorem atan2_zero_one : atan2 0 1 = 0 := by
  unfold atan2
  rw [if_pos one_pos]
  simp [Real.arctan_zero]

theorem haversineDistance_self (loc : Location) : haversineDistance loc loc = 0 := by
  unfold haversineDistance
  dsimp only
  rw [haversineSqrtArg_self]
  rw [Real.sqrt_zero, sub_zero, Real.sqrt_one, atan2_zero_one]
  ring

theorem haversineSqrtArg_symm (loc1 loc2 : Location) :
    haversineSqrtArg loc1 loc2 = haversineSqrtArg loc2 loc1 := by
  unfold haversineSqrtArg
  dsimp only
  have h1 : (loc1.lat - loc2.lat) * Real.pi / 180 / 2 =
      -((loc2.lat - loc1.lat) * Real.pi / 180 / 2) := by ring
  have h2 : (loc1.lon - loc2.lon) * Real.pi / 180 / 2 =
      -((loc2.lon - loc1.lon) * Real.pi / 180 / 2) := by ring
  rw [h1, h2, Real.sin_neg, Real.sin_neg]
  ring

theorem haversineDistance_symm (loc1 loc2 : Location) :
    haversineDistance loc1 loc2 = haversineDistance loc2 loc1 := by
  unfold haversineDistance
  rw [haversineSqrtArg_symm]

/-- Model of `parseFloat(x.toFixed(1))`: round to one decimal place. -/
noncomputable def round1 (x : ℝ) : ℝ := ((round (x * 10) : ℤ) : ℝ) / 10

/-- Model of `parseFloat(x.toFixed(2))`: round to two decimal places. -/
noncomputable def round2 (x : ℝ) : ℝ := ((round (x * 100) : ℤ) : ℝ) / 100

/-- The base-price expression
`MEDICINE_PRICES[lowerCaseMedicine] || (lowerCaseMedicine.length * 5 + Math.random() * 20)`
as a JS number, with `none` standing for NaN: an own numeric entry is kept unless falsy
(`0` would fall through to the fallback; no shipped entry is 0); an inherited
`Object.prototype` property is truthy, so `||` keeps the non-number and the later
arithmetic yields NaN; an absent key gives `undefined`, which is falsy and falls
through to the synthetic fallback. -/
noncomputable def jsBasePrice (lookupRes : PriceLookup) (len : ℕ) (rBase : ℝ) :
    Option ℝ :=
  match lookupRes with
  | PriceLookup.ownNum b =>
    if b = 0 then some ((len : ℝ) * 5 + rBase * 20) else some b
  | PriceLookup.protoVal => none
  | PriceLookup.undef => some ((len : ℝ) * 5 + rBase * 20)

theorem jsBasePrice_ownNum (b : ℝ) (len : ℕ) (rBase : ℝ) :
    jsBasePrice (PriceLookup.ownNum b) len rBase =
      if b = 0 then some ((len : ℝ) * 5 + rBase * 20) else some b := rfl

theorem jsBasePrice_protoVal (len : ℕ) (rBase : ℝ) :
    jsBasePrice PriceLookup.protoVal len rBase = none := rfl

theorem jsBasePrice_undef (len : ℕ) (rBase : ℝ) :
    jsBasePrice PriceLookup.undef len rBase = some ((len : ℝ) * 5 + rBase * 20) := rfl

/-- The full price synthesis of `findNearbyPharmacies` (base price, ±5% variation,
`parseFloat(price.toFixed(2))`) as a faithful JS-number computation; `none` models NaN
throughout (`NaN.toFixed(2)` is the string "NaN" and `parseFloat("NaN")` is NaN). -/
noncomputable def synthesizedPrice (medicineName : String) (rBase rVar : ℝ) :
    Option ℝ :=
  let lowerCaseMedicine := toLowerStr medicineName
  (jsBasePrice (MEDICINE_PRICES lowerCaseMedicine) lowerCaseMedicine.length rBase).map
    (fun basePrice => round2 (basePrice * (1 + (rVar - 0.5) * 0.1)))

/-- The `stockOptions` array from `findNearbyPharmacies` (weights InStock 3 : LowStock 1 : OutOfStock 1). -/
def stockOptions : List StockStatus :=
  [StockStatus.InStock, StockStatus.InStock, StockStatus.InStock,
   StockStatus.LowStock, StockStatus.OutOfStock]

/-- The per-pharmacy annotation step of `findNearbyPharmacies`: price and stock synthesis.
`rBase` models the `Math.random()` draw of the unknown-medicine jitter, `rVar` the
per-pharmacy price variation draw, `rStock` the stock draw.  The price field stores the
real value of the faithful `synthesizedPrice`; when the lookup hits an inherited
`Object.prototype` property the JS price is NaN, which ℝ cannot carry — `getD 0`
projects that case to an arbitrary real, no theorem reads the price field there, and
the NaN behaviour itself is settled against `synthesizedPrice`.  The `getD` default on
`stockOptions` models the out-of-contract index (never taken for draws in `[0,1)`). -/
noncomputable def annotate (medicineName : String) (rBase rVar rStock : ℝ)
    (p : PharmacyRecord × ℝ) : Pharmacy :=
  let lowerCaseMedicine := toLowerStr medicineName
  let basePrice : ℝ :=
    (jsBasePrice (MEDICINE_PRICES lowerCaseMedicine) lowerCaseMedicine.length
      rBase).getD 0
  let price := basePrice * (1 + (rVar - 0.5) * 0.1)
  { id := p.1.id, name := p.1.name, address := p.1.address, phone := p.1.phone,
    lat := p.1.lat, lon := p.1.lon,
    distance := round1 p.2,
    price := round2 price,
    priceUnit := "per strip of 15",
    stock := stockOptions.getD (Int.toNat ⌊rStock * 5⌋) StockStatus.OutOfStock,
    isBestOption := false }

/-- The `map` adding `distance` in `findNearbyPharmacies`. -/
noncomputable def pharmaciesWithDistance (dir : List PharmacyRecord)
    (userLocation : Location) : List (PharmacyRecord × ℝ) :=
  dir.map (fun pharmacy =>
    (pharmacy, haversineDistance userLocation ⟨pharmacy.lat, pharmacy.lon⟩))

/-- The comparator `(a, b) => a.distance - b.distance` as a boolean order. -/
noncomputable def distLE (a b : PharmacyRecord × ℝ) : Bool := decide (a.2 ≤ b.2)

/-- `closestPharmacies`: sort ascending by distance (JS sort is stable), take 10. -/
noncomputable def closestPharmacies (dir : List PharmacyRecord)
    (userLocation : Location) : List (PharmacyRecord × ℝ) :=
  ((pharmaciesWithDistance dir userLocation).mergeSort distLE).take 10

/-- Annotate each selected candidate, threading the index into the random streams. -/
noncomputable def annotateAll (medicineName : String) (rBase rVar rStock : ℕ → ℝ) :
    ℕ → List (PharmacyRecord × ℝ) → List Pharmacy
  | _, [] => []
  | i, p :: rest =>
    annotate medicineName (rBase i) (rVar i) (rStock i) p ::
      annotateAll medicineName rBase rVar rStock (i + 1) rest

/-- `pharmaciesWithDetails` from `findNearbyPharmacies`. -/
noncomputable def pharmaciesWithDetails (dir : List PharmacyRecord)
    (userLocation : Location) (medicineName : String)
    (rBase rVar rStock : ℕ → ℝ) : List Pharmacy :=
  annotateAll medicineName rBase rVar rStock 0 (closestPharmacies dir userLocation)

/-- One step of the best-option `forEach` loop: the `if` / `else if` chain of the source. -/
noncomputable def resolveBestStep (best : Option Pharmacy) (p : Pharmacy) : Option Pharmacy :=
  match best with
  | none => some p
  | some b =>
    if p.stock = StockStatus.InStock ∧ b.stock = StockStatus.LowStock then some p
    else if p.distance < b.distance ∧ p.price < b.price + 5 then some p
    else if p.price < b.price ∧ p.distance < b.distance + 1 then some p
    else some b

/-- The best-option selection loop of `findNearbyPharmacies`: filter out `OutOfStock`,
then fold the replacement rule left to right starting from `bestOption = null`. -/
noncomputable def resolveBest (results : List Pharmacy) : Option Pharmacy :=
  (results.filter (fun p => p.stock ≠ StockStatus.OutOfStock)).foldl resolveBestStep none

/-- Setting `bestOption.isBestOption = true`: within one query result ids are distinct,
so flagging the result whose id matches the resolver's choice models the JS mutation
of the chosen object. -/
noncomputable def markBest (results : List Pharmacy) : List Pharmacy :=
  match resolveBest results with
  | none => results
  | some b =>
    results.map (fun p => if p.id = b.id then { p with isBestOption := true } else p)

/-- `findNearbyPharmacies` over an arbitrary directory (the directory is an input the
pipeline only reads). -/
noncomputable def findNearbyPharmaciesOn (dir : List PharmacyRecord)
    (userLocation : Location) (medicineName : String)
    (rBase rVar rStock : ℕ → ℝ) : List Pharmacy :=
  markBest (pharmaciesWithDetails dir userLocation medicineName rBase rVar rStock)

/-- `findNearbyPharmacies` from `pharmacyService.ts`, applied to the shipped directory.
The promise/latency wrapper carries no semantics; the resolved value is modelled. -/
noncomputable def findNearbyPharmacies (userLocation : Location) (medicineName : String)
    (rBase rVar rStock : ℕ → ℝ) : List Pharmacy :=
  findNearbyPharmaciesOn VERIFIED_PHARMACIES_IN_BANGALORE
    userLocation medicineName rBase rVar rStock

/-- The `stockOrder` ranking used by the availability comparator in the app component. -/
def stockOrder : StockStatus → ℕ
  | StockStatus.InStock => 1
  | StockStatus.LowStock => 2
  | StockStatus.OutOfStock => 3

/-- The numeric sort key of the display comparator for each `SortKey`. -/
noncomputable def sortKeyVal (k : SortKey) (p : Pharmacy) : ℝ :=
  match k with
  | SortKey.price => p.price
  | SortKey.distance => p.distance
  | SortKey.availability => (stockOrder p.stock : ℝ)

/-- The `sortedPharmacies` comparator of the app component as a boolean order:
`comparator a b ≤ 0`.  A best-option result compares below everything else. -/
noncomputable def displayLE (k : SortKey) (a b : Pharmacy) : Bool :=
  if a.isBestOption then true
  else if b.isBestOption then false
  else decide (sortKeyVal k a ≤ sortKeyVal k b)

/-- `sortedPharmacies` from the app component: a stable sort by the display comparator. -/
noncomputable def sortedPharmacies (l : List Pharmacy) (k : SortKey) : List Pharmacy :=
  l.mergeSort (displayLE k)

/-- Model of JavaScript `String.prototype.trim`: strip whitespace from both ends. -/
def trimStr (s : String) : String :=
  ⟨(((s.data.dropWhile (·.isWhitespace)).reverse.dropWhile (·.isWhitespace)).reverse)⟩

/-- The `handleSearch` caller guard `if (!query.trim()) return`. -/
def handleSearchProceeds (query : String) : Bool := !(trimStr query == "")

/-- The replacement rule of the Best-Option Resolver as §4.5 of the spec words it:
(a) availability dominates, or else (b) closer and not meaningfully pricier, or else
(c) cheaper and not meaningfully farther; each branch replaces, so the priority chain
is the disjunction. -/
def specReplaces (p best : Pharmacy) : Prop :=
  (p.stock = StockStatus.InStock ∧ best.stock = StockStatus.LowStock) ∨
  (p.distance < best.distance ∧ p.price < best.price + 5) ∨
  (p.price < best.price ∧ p.distance < best.distance + 1)

noncomputable instance specReplacesDecidable (p best : Pharmacy) :
    Decidable (specReplaces p best) := by
  unfold specReplaces
  infer_instance

/-- The Best-Option Resolver as §4.5 of the spec words it: exclude `OutOfStock`
candidates, resolve to none if none remain, seed the running best with the first
remaining candidate, then scan left to right applying `specReplaces`. -/
noncomputable def specResolveBest (results : List Pharmacy) : Option Pharmacy :=
  match results.filter (fun p => p.stock ≠ StockStatus.OutOfStock) with
  | [] => none
  | first :: rest =>
    some (rest.foldl (fun best p => if specReplaces p best then p else best) first)

/-- C7: the distance function is symmetric — for every pair of GeoPoints `a` and `b`,
`distance(a, b) = distance(b, a)` — and for every GeoPoint `a`, `distance(a, a) = 0`. -/
theorem claim_C7_distance_symm :
    (∀ a b : Location, haversineDistance a b = haversineDistance b a) ∧
    (∀ a : Location, haversineDistance a a = 0) :=
  ⟨haversineDistance_symm, haversineDistance_self⟩

/-- C5 counterexample: two distinct GeoPoints (both at latitude 90, longitudes 0 and 90 —
in-range coordinates) whose haversine distance is exactly 0, refuting "zero only when
the two points exactly coincide". -/
theorem claim_C5_counterexample :
    haversineDistance ⟨90, 0⟩ ⟨90, 90⟩ = 0 ∧ Location.mk 90 0 ≠ Location.mk 90 90 := by
  constructor
  · have harg : haversineSqrtArg ⟨90, 0⟩ ⟨90, 90⟩ = 0 := by
      unfold haversineSqrtArg
      dsimp only
      have e1 : ((90:ℝ) - 90) * Real.pi / 180 / 2 = 0 := by ring
      have e2 : (90:ℝ) * Real.pi / 180 = Real.pi / 2 := by ring
      rw [e1, e2, Real.sin_zero, Real.cos_pi_div_two]
      ring
    unfold haversineDistance
    dsimp only
    rw [harg, Real.sqrt_zero, sub_zero, Real.sqrt_one, atan2_zero_one]
    ring
  · intro h
    have hlon := congrArg Location.lon h
    norm_num at hlon

/-- C5 (amended): for every pair of GeoPoints the distance function returns a
non-negative real number; the distance is 0 whenever the two points coincide (though
not only then); and the inner square-root argument always lies in `[0, 1]` in exact
real arithmetic — the code contains no explicit clamp, and needs none in this model. -/
theorem claim_C5_amended :
    (∀ loc1 loc2 : Location,
        0 ≤ haversineDistance loc1 loc2 ∧
        0 ≤ haversineSqrtArg loc1 loc2 ∧ haversineSqrtArg loc1 loc2 ≤ 1) ∧
    (∀ loc : Location, haversineDistance loc loc = 0) :=
  ⟨fun l1 l2 => ⟨haversineDistance_nonneg l1 l2,
      (haversineSqrtArg_mem l1 l2).1, (haversineSqrtArg_mem l1 l2).2⟩,
    haversineDistance_self⟩

theorem resolveBestStep_some (b p : Pharmacy) :
    resolveBestStep (some b) p = some (if specReplaces p b then p else b) := by
  show (if p.stock = StockStatus.InStock ∧ b.stock = StockStatus.LowStock then some p
      else if p.distance < b.distance ∧ p.price < b.price + 5 then some p
      else if p.price < b.price ∧ p.distance < b.distance + 1 then some p
      else some b) = some (if specReplaces p b then p else b)
  unfold specReplaces
  split_ifs <;> first | rfl | tauto

theorem foldl_resolveBestStep_some (t : List Pharmacy) (b : Pharmacy) :
    t.foldl resolveBestStep (some b) =
      some (t.foldl (fun best p => if specReplaces p best then p else best) b) := by
  induction t generalizing b with
  | nil => rfl
  | cons p t ih =>
    rw [List.foldl_cons, List.foldl_cons, resolveBestStep_some]
    exact ih _

/-- C1: the Best-Option Resolver of the code computes exactly the algorithm the spec
describes — exclude `OutOfStock` candidates (none remaining resolves to none), seed the
running best with the first remaining candidate in scan order, then replace it by each
subsequent candidate exactly when rule (a), (b) or (c) fires. -/
theorem claim_C1_resolver_algorithm :
    ∀ results : List Pharmacy, resolveBest results = specResolveBest results := by
  intro results
  unfold resolveBest specResolveBest
  cases h : results.filter (fun p => p.stock ≠ StockStatus.OutOfStock) with
  | nil => rfl
  | cons first rest =>
    rw [List.foldl_cons]
    show rest.foldl resolveBestStep (some first) = _
    rw [foldl_resolveBestStep_some]

theorem resolveBest_eq_none_iff (results : List Pharmacy) :
    resolveBest results = none ↔ ∀ p ∈ results, p.stock = StockStatus.OutOfStock := by
  unfold resolveBest
  cases h : results.filter (fun p => p.stock ≠ StockStatus.OutOfStock) with
  | nil =>
    simp only [List.foldl_nil, true_iff]
    intro p hp
    have hf := List.filter_eq_nil_iff.mp h p hp
    simpa using hf
  | cons first rest =>
    constructor
    · intro hnone
      rw [List.foldl_cons] at hnone
      have hstep : resolveBestStep none first = some first := rfl
      rw [hstep, foldl_resolveBestStep_some] at hnone
      exact absurd hnone (by simp)
    · intro hall
      exfalso
      have hf : first ∈ results.filter (fun p => p.stock ≠ StockStatus.OutOfStock) := by
        rw [h]
        exact List.mem_cons_self _ _
      have hmem := List.mem_filter.mp hf
      have hne : first.stock ≠ StockStatus.OutOfStock := by simpa using hmem.2
      exact hne (hall first hmem.1)

theorem mem_of_foldl_resolveBestStep (t : List Pharmacy) :
    ∀ (acc : Option Pharmacy) (b : Pharmacy),
      t.foldl resolveBestStep acc = some b → acc = some b ∨ b ∈ t := by
  induction t with
  | nil =>
    intro acc b h
    exact Or.inl h
  | cons p t ih =>
    intro acc b h
    rw [List.foldl_cons] at h
    rcases ih _ b h with hstep | hmem
    · cases acc with
      | none =>
        have hb : p = b := by
          have : some p = some b := hstep
          exact Option.some.inj this
        exact Or.inr (hb ▸ List.mem_cons_self _ _)
      | some a =>
        rw [resolveBestStep_some] at hstep
        have hval := Option.some.inj hstep
        by_cases hc : specReplaces p a
        · rw [if_pos hc] at hval
          exact Or.inr (hval ▸ List.mem_cons_self _ _)
        · rw [if_neg hc] at hval
          exact Or.inl (congrArg some hval)
    · exact Or.inr (List.mem_cons_of_mem _ hmem)

theorem resolveBest_mem {results : List Pharmacy} {b : Pharmacy}
    (h : resolveBest results = some b) :
    b ∈ results ∧ b.stock ≠ StockStatus.OutOfStock := by
  unfold resolveBest at h
  rcases mem_of_foldl_resolveBestStep _ none b h with h' | h'
  · exact absurd h' (by simp)
  · have hm := List.mem_filter.mp h'
    exact ⟨hm.1, by simpa using hm.2⟩

/-- C8: the Best-Option Resolver step is deterministic — it consumes no randomness, so
whenever two runs of the pipeline produce the same annotated candidate list (prices,
stocks and distances held fixed), the flagged output and the resolver's choice agree,
whatever the random streams were. -/
theorem claim_C8_resolver_deterministic :
    ∀ (userLocation : Location) (medicineName : String) (r1 r2 r3 r4 r5 r6 : ℕ → ℝ),
      pharmaciesWithDetails VERIFIED_PHARMACIES_IN_BANGALORE
          userLocation medicineName r1 r2 r3 =
        pharmaciesWithDetails VERIFIED_PHARMACIES_IN_BANGALORE
          userLocation medicineName r4 r5 r6 →
      findNearbyPharmacies userLocation medicineName r1 r2 r3 =
          findNearbyPharmacies userLocation medicineName r4 r5 r6 ∧
        resolveBest (pharmaciesWithDetails VERIFIED_PHARMACIES_IN_BANGALORE
            userLocation medicineName r1 r2 r3) =
          resolveBest (pharmaciesWithDetails VERIFIED_PHARMACIES_IN_BANGALORE
            userLocation medicineName r4 r5 r6) := by
  intro loc name r1 r2 r3 r4 r5 r6 h
  unfold findNearbyPharmacies findNearbyPharmaciesOn
  rw [h]
  exact ⟨rfl, rfl⟩

/-- Witness for C8 at a concrete location, medicine and random streams. -/
theorem claim_C8_witness :
    (pharmaciesWithDetails VERIFIED_PHARMACIES_IN_BANGALORE
        ⟨12.9, 77.5⟩ "paracetamol" (fun _ => 0) (fun _ => 0) (fun _ => 0) =
      pharmaciesWithDetails VERIFIED_PHARMACIES_IN_BANGALORE
        ⟨12.9, 77.5⟩ "paracetamol" (fun _ => 0) (fun _ => 0) (fun _ => 0)) ∧
    (findNearbyPharmacies ⟨12.9, 77.5⟩ "paracetamol"
          (fun _ => 0) (fun _ => 0) (fun _ => 0) =
        findNearbyPharmacies ⟨12.9, 77.5⟩ "paracetamol"
          (fun _ => 0) (fun _ => 0) (fun _ => 0) ∧
      resolveBest (pharmaciesWithDetails VERIFIED_PHARMACIES_IN_BANGALORE
          ⟨12.9, 77.5⟩ "paracetamol" (fun _ => 0) (fun _ => 0) (fun _ => 0)) =
        resolveBest (pharmaciesWithDetails VERIFIED_PHARMACIES_IN_BANGALORE
          ⟨12.9, 77.5⟩ "paracetamol" (fun _ => 0) (fun _ => 0) (fun _ => 0))) :=
  ⟨rfl, claim_C8_resolver_deterministic ⟨12.9, 77.5⟩ "paracetamol"
    (fun _ => 0) (fun _ => 0) (fun _ => 0) (fun _ => 0) (fun _ => 0) (fun _ => 0) rfl⟩

theorem annotateAll_map_id (medicineName : String) (rBase rVar rStock : ℕ → ℝ) :
    ∀ (i : ℕ) (l : List (PharmacyRecord × ℝ)),
      (annotateAll medicineName rBase rVar rStock i l).map (·.id) = l.map (·.1.id) := by
  intro i l
  induction l generalizing i with
  | nil => rfl
  | cons p rest ih =>
    unfold annotateAll
    simp only [List.map_cons]
    rw [ih]
    rfl

theorem annotateAll_map_distance (medicineName : String) (rBase rVar rStock : ℕ → ℝ) :
    ∀ (i : ℕ) (l : List (PharmacyRecord × ℝ)),
      (annotateAll medicineName rBase rVar rStock i l).map (·.distance) =
        l.map (fun x => round1 x.2) := by
  intro i l
  induction l generalizing i with
  | nil => rfl
  | cons p rest ih =>
    unfold annotateAll
    simp only [List.map_cons]
    rw [ih]
    rfl

theorem annotateAll_length (medicineName : String) (rBase rVar rStock : ℕ → ℝ) :
    ∀ (i : ℕ) (l : List (PharmacyRecord × ℝ)),
      (annotateAll medicineName rBase rVar rStock i l).length = l.length := by
  intro i l
  induction l generalizing i with
  | nil => rfl
  | cons p rest ih =>
    unfold annotateAll
    simp only [List.length_cons]
    rw [ih]

theorem annotateAll_isBestOption_false (medicineName : String) (rBase rVar rStock : ℕ → ℝ) :
    ∀ (i : ℕ) (l : List (PharmacyRecord × ℝ)),
      ∀ p ∈ annotateAll medicineName rBase rVar rStock i l, p.isBestOption = false := by
  intro i l
  induction l generalizing i with
  | nil =>
    intro p hp
    exact absurd hp (List.not_mem_nil p)
  | cons q rest ih =>
    intro p hp
    unfold annotateAll at hp
    rcases List.mem_cons.mp hp with h | h
    · rw [h]
      rfl
    · exact ih _ p h

theorem annotateAll_mem (medicineName : String) (rBase rVar rStock : ℕ → ℝ) :
    ∀ (i : ℕ) (l : List (PharmacyRecord × ℝ)),
      ∀ p ∈ annotateAll medicineName rBase rVar rStock i l,
        ∃ j x, x ∈ l ∧ p = annotate medicineName (rBase j) (rVar j) (rStock j) x := by
  intro i l
  induction l generalizing i with
  | nil =>
    intro p hp
    exact absurd hp (List.not_mem_nil p)
  | cons q rest ih =>
    intro p hp
    unfold annotateAll at hp
    rcases List.mem_cons.mp hp with h | h
    · exact ⟨i, q, List.mem_cons_self _ _, h⟩
    · rcases ih _ p h with ⟨j, x, hx, he⟩
      exact ⟨j, x, List.mem_cons_of_mem _ hx, he⟩

theorem pharmaciesWithDistance_map_id (dir : List PharmacyRecord) (loc : Location) :
    (pharmaciesWithDistance dir loc).map (·.1.id) = dir.map (·.id) := by
  unfold pharmaciesWithDistance
  rw [List.map_map]
  rfl

theorem details_ids_nodup (dir : List PharmacyRecord) (loc : Location)
    (medicineName : String) (rBase rVar rStock : ℕ → ℝ)
    (hdir : (dir.map (·.id)).Nodup) :
    ((pharmaciesWithDetails dir loc medicineName rBase rVar rStock).map (·.id)).Nodup := by
  unfold pharmaciesWithDetails closestPharmacies
  rw [annotateAll_map_id, List.map_take]
  have hperm : ((pharmaciesWithDistance dir loc).mergeSort distLE).map (·.1.id) =
      ((pharmaciesWithDistance dir loc).mergeSort distLE).map (·.1.id) := rfl
  have hp : (((pharmaciesWithDistance dir loc).mergeSort distLE).map (·.1.id)).Perm
      ((pharmaciesWithDistance dir loc).map (·.1.id)) :=
    (List.mergeSort_perm (pharmaciesWithDistance dir loc) distLE).map _
  have hnd : (((pharmaciesWithDistance dir loc).mergeSort distLE).map (·.1.id)).Nodup := by
    apply hp.symm.nodup
    rw [pharmaciesWithDistance_map_id]
    exact hdir
  exact (List.take_sublist _ _).nodup hnd

theorem shipped_ids_nodup : (VERIFIED_PHARMACIES_IN_BANGALORE.map (·.id)).Nodup := by
  decide

theorem markBest_of_none {l : List Pharmacy} (h : resolveBest l = none) :
    markBest l = l := by
  unfold markBest
  rw [h]

theorem markBest_of_some {l : List Pharmacy} {b : Pharmacy} (h : resolveBest l = some b) :
    markBest l =
      l.map (fun p => if p.id = b.id then { p with isBestOption := true } else p) := by
  unfold markBest
  rw [h]

theorem markBest_countP_eq_one {l : List Pharmacy} {b : Pharmacy}
    (h : resolveBest l = some b)
    (hfalse : ∀ p ∈ l, p.isBestOption = false)
    (hnodup : (l.map (·.id)).Nodup) :
    (markBest l).countP (·.isBestOption) = 1 := by
  rw [markBest_of_some h]
  rw [List.countP_map]
  have hb : b ∈ l := (resolveBest_mem h).1
  have hcong : l.countP
      ((fun p : Pharmacy => p.isBestOption) ∘
        (fun p => if p.id = b.id then { p with isBestOption := true } else p)) =
      l.countP (fun p => p.id == b.id) := by
    apply List.countP_congr
    intro p hp
    by_cases hid : p.id = b.id
    · simp [Function.comp, hid]
    · simp [Function.comp, hid, hfalse p hp]
  rw [hcong]
  have : l.countP (fun p => p.id == b.id) = (l.map (·.id)).count b.id := by
    rw [List.count, List.countP_map]
    rfl
  rw [this]
  exact List.count_eq_one_of_mem hnodup (List.mem_map.mpr ⟨b, hb, rfl⟩)

theorem markBest_stock_witness {l : List Pharmacy} {b : Pharmacy}
    (h : resolveBest l = some b) :
    ∃ p ∈ markBest l, p.stock = b.stock := by
  rw [markBest_of_some h]
  refine ⟨if b.id = b.id then { b with isBestOption := true } else b,
    List.mem_map.mpr ⟨b, (resolveBest_mem h).1, rfl⟩, ?_⟩
  rw [if_pos rfl]

/-- C2: on every query (any location, medicine name and random draws), at most one
result of the returned list has `isBestOption = true`, and the count is zero iff
every result in the response is `OutOfStock` (vacuously true for an empty response). -/
theorem claim_C2_unique_flag :
    ∀ (userLocation : Location) (medicineName : String) (rBase rVar rStock : ℕ → ℝ),
      (findNearbyPharmacies userLocation medicineName rBase rVar rStock).countP
          (·.isBestOption) ≤ 1 ∧
      ((findNearbyPharmacies userLocation medicineName rBase rVar rStock).countP
          (·.isBestOption) = 0 ↔
        ∀ p ∈ findNearbyPharmacies userLocation medicineName rBase rVar rStock,
          p.stock = StockStatus.OutOfStock) := by
  intro loc name rBase rVar rStock
  unfold findNearbyPharmacies findNearbyPharmaciesOn
  set l := pharmaciesWithDetails VERIFIED_PHARMACIES_IN_BANGALORE loc name rBase rVar rStock
    with hl
  have hfalse : ∀ p ∈ l, p.isBestOption = false := by
    intro p hp
    exact annotateAll_isBestOption_false name rBase rVar rStock 0 _ p hp
  have hnodup : (l.map (·.id)).Nodup :=
    details_ids_nodup _ _ _ _ _ _ shipped_ids_nodup
  cases h : resolveBest l with
  | none =>
    rw [markBest_of_none h]
    have hz : l.countP (·.isBestOption) = 0 :=
      List.countP_eq_zero.mpr (by intro p hp; simp [hfalse p hp])
    refine ⟨by rw [hz]; norm_num, ?_⟩
    rw [hz]
    simp only [true_iff]
    exact (resolveBest_eq_none_iff l).mp h
  | some b =>
    have hone := markBest_countP_eq_one h hfalse hnodup
    refine ⟨le_of_eq hone, ?_⟩
    rw [hone]
    constructor
    · intro hz
      exact absurd hz one_ne_zero
    · intro hall
      exfalso
      rcases markBest_stock_witness h with ⟨p, hp, hps⟩
      have := hall p hp
      rw [hps] at this
      exact (resolveBest_mem h).2 this

theorem distLE_trans : ∀ a b c : PharmacyRecord × ℝ,
    distLE a b = true → distLE b c = true → distLE a c = true := by
  intro a b c hab hbc
  unfold distLE at *
  rw [decide_eq_true_eq] at *
  linarith

theorem distLE_total : ∀ a b : PharmacyRecord × ℝ, (distLE a b || distLE b a) = true := by
  intro a b
  unfold distLE
  rcases le_total a.2 b.2 with h | h
  · simp [h]
  · simp [h]

theorem round1_mono {x y : ℝ} (h : x ≤ y) : round1 x ≤ round1 y := by
  unfold round1
  have hr : round (x * 10) ≤ round (y * 10) := by
    rw [round_eq, round_eq]
    exact Int.floor_mono (by linarith)
  have hc : ((round (x * 10) : ℤ) : ℝ) ≤ ((round (y * 10) : ℤ) : ℝ) := Int.cast_le.mpr hr
  linarith

theorem markBest_map_id (l : List Pharmacy) : (markBest l).map (·.id) = l.map (·.id) := by
  unfold markBest
  cases h : resolveBest l with
  | none => rfl
  | some b =>
    rw [List.map_map]
    apply List.map_congr_left
    intro p hp
    by_cases hid : p.id = b.id
    · simp [Function.comp, hid]
    · simp [Function.comp, hid]

theorem markBest_map_distance (l : List Pharmacy) :
    (markBest l).map (·.distance) = l.map (·.distance) := by
  unfold markBest
  cases h : resolveBest l with
  | none => rfl
  | some b =>
    rw [List.map_map]
    apply List.map_congr_left
    intro p hp
    by_cases hid : p.id = b.id
    · simp [Function.comp, hid]
    · simp [Function.comp, hid]

theorem markBest_length (l : List Pharmacy) : (markBest l).length = l.length := by
  unfold markBest
  cases h : resolveBest l with
  | none => rfl
  | some b => exact List.length_map _ _

theorem closest_sorted (dir : List PharmacyRecord) (loc : Location) :
    (closestPharmacies dir loc).Pairwise (fun a b => a.2 ≤ b.2) := by
  unfold closestPharmacies
  have hPW := List.sorted_mergeSort distLE_trans distLE_total
    (pharmaciesWithDistance dir loc)
  have hsub := hPW.sublist (List.take_sublist 10 _)
  exact hsub.imp (by intro a b h; unfold distLE at h; rwa [decide_eq_true_eq] at h)

theorem closest_mem (dir : List PharmacyRecord) (loc : Location) :
    ∀ a ∈ closestPharmacies dir loc,
      a.1 ∈ dir ∧ a.2 = haversineDistance loc ⟨a.1.lat, a.1.lon⟩ := by
  intro a ha
  have h1 : a ∈ (pharmaciesWithDistance dir loc).mergeSort distLE :=
    List.take_subset _ _ ha
  have h2 : a ∈ pharmaciesWithDistance dir loc :=
    (List.mergeSort_perm _ distLE).mem_iff.mp h1
  unfold pharmaciesWithDistance at h2
  rcases List.mem_map.mp h2 with ⟨ph, hph, he⟩
  rw [← he]
  exact ⟨hph, rfl⟩

theorem closest_minimal (dir : List PharmacyRecord) (loc : Location) :
    ∀ a ∈ closestPharmacies dir loc,
      ∀ b ∈ ((pharmaciesWithDistance dir loc).mergeSort distLE).drop 10, a.2 ≤ b.2 := by
  have hPW := List.sorted_mergeSort distLE_trans distLE_total
    (pharmaciesWithDistance dir loc)
  rw [← List.take_append_drop 10 ((pharmaciesWithDistance dir loc).mergeSort distLE)]
    at hPW
  rcases List.pairwise_append.mp hPW with ⟨_, _, hcross⟩
  intro a ha b hb
  have := hcross a ha b hb
  unfold distLE at this
  rwa [decide_eq_true_eq] at this

theorem closest_length (dir : List PharmacyRecord) (loc : Location) :
    (closestPharmacies dir loc).length = min 10 dir.length := by
  unfold closestPharmacies
  rw [List.length_take, List.length_mergeSort]
  unfold pharmaciesWithDistance
  rw [List.length_map]

/-- C3: for every user location and medicine name the query returns exactly
`min(10, |directory|)` results (10 for the shipped 20-record directory); they are
precisely the selected nearest candidates (same ids in the same order), every selected
candidate carries the haversine distance of a directory record, the selection is
sorted non-decreasing in raw distance and is minimal against every dropped candidate,
and the returned results are non-decreasing in their (rounded) distance field. -/
theorem claim_C3_candidate_selection :
    ∀ (userLocation : Location) (medicineName : String) (rBase rVar rStock : ℕ → ℝ),
      VERIFIED_PHARMACIES_IN_BANGALORE.length = 20 ∧
      (findNearbyPharmacies userLocation medicineName rBase rVar rStock).length =
        min 10 VERIFIED_PHARMACIES_IN_BANGALORE.length ∧
      (findNearbyPharmacies userLocation medicineName rBase rVar rStock).map (·.id) =
        (closestPharmacies VERIFIED_PHARMACIES_IN_BANGALORE userLocation).map (·.1.id) ∧
      (closestPharmacies VERIFIED_PHARMACIES_IN_BANGALORE userLocation).Pairwise
        (fun a b => a.2 ≤ b.2) ∧
      (∀ a ∈ closestPharmacies VERIFIED_PHARMACIES_IN_BANGALORE userLocation,
        a.1 ∈ VERIFIED_PHARMACIES_IN_BANGALORE ∧
        a.2 = haversineDistance userLocation ⟨a.1.lat, a.1.lon⟩) ∧
      (∀ a ∈ closestPharmacies VERIFIED_PHARMACIES_IN_BANGALORE userLocation,
        ∀ b ∈ ((pharmaciesWithDistance VERIFIED_PHARMACIES_IN_BANGALORE
            userLocation).mergeSort distLE).drop 10, a.2 ≤ b.2) ∧
      (findNearbyPharmacies userLocation medicineName rBase rVar rStock).Pairwise
        (fun p q => p.distance ≤ q.distance) := by
  intro loc name rBase rVar rStock
  refine ⟨rfl, ?_, ?_, closest_sorted _ _, closest_mem _ _, closest_minimal _ _, ?_⟩
  · unfold findNearbyPharmacies findNearbyPharmaciesOn
    rw [markBest_length]
    unfold pharmaciesWithDetails
    rw [annotateAll_length, closest_length]
  · unfold findNearbyPharmacies findNearbyPharmaciesOn
    rw [markBest_map_id]
    unfold pharmaciesWithDetails
    rw [annotateAll_map_id]
  · have hmapeq :
        (findNearbyPharmacies loc name rBase rVar rStock).map (·.distance) =
          (closestPharmacies VERIFIED_PHARMACIES_IN_BANGALORE loc).map
            (fun x => round1 x.2) := by
      unfold findNearbyPharmacies findNearbyPharmaciesOn
      rw [markBest_map_distance]
      unfold pharmaciesWithDetails
      rw [annotateAll_map_distance]
    have hPW : ((findNearbyPharmacies loc name rBase rVar rStock).map
        (·.distance)).Pairwise (· ≤ ·) := by
      rw [hmapeq, List.pairwise_map]
      exact (closest_sorted _ _).imp (fun h => round1_mono h)
    rw [List.pairwise_map] at hPW
    exact hPW

theorem displayLE_trans (k : SortKey) : ∀ a b c : Pharmacy,
    displayLE k a b = true → displayLE k b c = true → displayLE k a c = true := by
  intro a b c hab hbc
  unfold displayLE at *
  by_cases ha : a.isBestOption <;> by_cases hb : b.isBestOption <;>
    by_cases hc : c.isBestOption <;>
    simp [ha, hb, hc] at * <;> linarith

theorem displayLE_total (k : SortKey) : ∀ a b : Pharmacy,
    (displayLE k a b || displayLE k b a) = true := by
  intro a b
  unfold displayLE
  by_cases ha : a.isBestOption <;> by_cases hb : b.isBestOption <;> simp [ha, hb]
  exact le_total _ _

theorem pairwise_filter_partition {α : Type} (P : α → Bool) (R : α → α → Prop) :
    ∀ l : List α, l.Pairwise R → (∀ a b, R a b → P b = true → P a = true) →
      l = l.filter P ++ l.filter (fun x => !P x) := by
  intro l hPW hcl
  induction l with
  | nil => rfl
  | cons x xs ih =>
    rcases List.pairwise_cons.mp hPW with ⟨hx, hxs⟩
    by_cases hP : P x = true
    · rw [List.filter_cons_of_pos hP, List.filter_cons_of_neg (by simp [hP]),
        List.cons_append]
      congr 1
      exact ih hxs
    · have hPx : P x = false := Bool.eq_false_iff.mpr hP
      have hall : ∀ y ∈ xs, P y = false := by
        intro y hy
        rcases Bool.eq_false_or_eq_true (P y) with h | h
        · exact absurd (hcl x y (hx y hy) h) hP
        · exact h
      have h1 : xs.filter P = [] :=
        List.filter_eq_nil_iff.mpr (fun a ha => by simp [hall a ha])
      have h2 : xs.filter (fun y => !P y) = xs :=
        List.filter_eq_self.mpr (fun a ha => by simp [hall a ha])
      rw [List.filter_cons_of_neg (by simp [hPx]),
        List.filter_cons_of_pos (by simp [hPx]), h1, h2]
      rfl

theorem singleton_of_mem_of_length_le_one {α : Type} {l : List α} {p : α}
    (hp : p ∈ l) (hlen : l.length ≤ 1) : l = [p] := by
  cases l with
  | nil => exact absurd hp (List.not_mem_nil p)
  | cons a t =>
    cases t with
    | nil =>
      rcases List.mem_singleton.mp hp with rfl
      rfl
    | cons b u => simp at hlen

/-- C4: for every result list holding at most one best-option flag and every sort key,
the reorder step is a stable partition — the output is a permutation of the input
consisting of the flagged results followed by the unflagged ones, the unflagged
remainder is non-decreasing in the chosen key (distance, price, or the
InStock < LowStock < OutOfStock ranking), and any flagged result is placed first. -/
theorem claim_C4_display_reorder :
    ∀ (l : List Pharmacy) (k : SortKey),
      l.countP (·.isBestOption) ≤ 1 →
      (sortedPharmacies l k).Perm l ∧
      sortedPharmacies l k =
        (sortedPharmacies l k).filter (·.isBestOption) ++
          (sortedPharmacies l k).filter (fun p => !p.isBestOption) ∧
      ((sortedPharmacies l k).filter (fun p => !p.isBestOption)).Pairwise
        (fun a b => sortKeyVal k a ≤ sortKeyVal k b) ∧
      (∀ p ∈ l, p.isBestOption = true → (sortedPharmacies l k).head? = some p) := by
  intro l k hcount
  have hperm : (sortedPharmacies l k).Perm l := List.mergeSort_perm l (displayLE k)
  have hPW : (sortedPharmacies l k).Pairwise (fun a b => displayLE k a b = true) :=
    List.sorted_mergeSort (displayLE_trans k) (displayLE_total k) l
  have hcl : ∀ a b : Pharmacy, displayLE k a b = true →
      b.isBestOption = true → a.isBestOption = true := by
    intro a b h hb
    by_cases ha : a.isBestOption
    · exact ha
    · unfold displayLE at h
      rw [if_neg (by simp [ha]), if_pos hb] at h
      exact absurd h (by simp)
  have hpart := pairwise_filter_partition (·.isBestOption) _ _ hPW hcl
  refine ⟨hperm, hpart, ?_, ?_⟩
  · have hsub : ((sortedPharmacies l k).filter (fun p => !p.isBestOption)).Pairwise
        (fun a b => displayLE k a b = true) :=
      hPW.sublist (List.filter_sublist _)
    apply hsub.imp_of_mem
    intro a b ha hb h
    have ha' : a.isBestOption = false := by simpa using (List.mem_filter.mp ha).2
    have hb' : b.isBestOption = false := by simpa using (List.mem_filter.mp hb).2
    unfold displayLE at h
    rw [if_neg (by simp [ha']), if_neg (by simp [hb'])] at h
    exact of_decide_eq_true h
  · intro p hp hpbest
    have hmemf : p ∈ l.filter (·.isBestOption) := List.mem_filter.mpr ⟨hp, hpbest⟩
    have hlenf : (l.filter (·.isBestOption)).length ≤ 1 := by
      rw [← List.countP_eq_length_filter]
      exact hcount
    have hsingle : l.filter (·.isBestOption) = [p] :=
      singleton_of_mem_of_length_le_one hmemf hlenf
    have hpf : ((sortedPharmacies l k).filter (·.isBestOption)).Perm [p] := by
      rw [← hsingle]
      exact hperm.filter _
    have hfeq : (sortedPharmacies l k).filter (·.isBestOption) = [p] :=
      List.perm_singleton.mp hpf
    rw [hpart, hfeq]
    rfl

/-- A flagged fixture result used by witnesses. -/
def pharmA : Pharmacy :=
  { id := 5, name := "A", address := "a", phone := "p", lat := 0, lon := 0,
    distance := 5, price := 10, priceUnit := "u",
    stock := StockStatus.InStock, isBestOption := true }

/-- An unflagged fixture result used by witnesses. -/
def pharmB : Pharmacy :=
  { id := 6, name := "B", address := "b", phone := "q", lat := 0, lon := 0,
    distance := 2, price := 20, priceUnit := "u",
    stock := StockStatus.LowStock, isBestOption := false }

/-- Witness for C4: a concrete two-result list (one flagged) sorted by distance. -/
theorem claim_C4_witness :
    (([pharmA, pharmB] : List Pharmacy).countP (·.isBestOption) ≤ 1) ∧
    ((sortedPharmacies [pharmA, pharmB] SortKey.distance).Perm [pharmA, pharmB] ∧
      sortedPharmacies [pharmA, pharmB] SortKey.distance =
        (sortedPharmacies [pharmA, pharmB] SortKey.distance).filter (·.isBestOption) ++
          (sortedPharmacies [pharmA, pharmB] SortKey.distance).filter
            (fun p => !p.isBestOption) ∧
      ((sortedPharmacies [pharmA, pharmB] SortKey.distance).filter
          (fun p => !p.isBestOption)).Pairwise
        (fun a b => sortKeyVal SortKey.distance a ≤ sortKeyVal SortKey.distance b) ∧
      (∀ p ∈ ([pharmA, pharmB] : List Pharmacy), p.isBestOption = true →
        (sortedPharmacies [pharmA, pharmB] SortKey.distance).head? = some p)) :=
  ⟨by decide, claim_C4_display_reorder [pharmA, pharmB] SortKey.distance (by decide)⟩

theorem toLowerStr_length (s : String) : (toLowerStr s).length = s.length := by
  show (String.mk (s.data.map Char.toLower)).length = s.length
  simp only [String.length]
  exact List.length_map _ _

theorem toLowerStr_ne_empty {s : String} (h : s ≠ "") : (toLowerStr s).length ≠ 0 := by
  rw [toLowerStr_length]
  intro h0
  apply h
  have hd : s.data.length = 0 := h0
  have : s.data = [] := List.length_eq_zero.mp hd
  cases s
  simp_all

theorem MEDICINE_PRICES_lower_bound {s : String} {b : ℝ}
    (h : MEDICINE_PRICES s = PriceLookup.ownNum b) : 25 ≤ b := by
  unfold MEDICINE_PRICES at h
  split_ifs at h
  all_goals cases h
  all_goals norm_num

theorem round2_pos {x : ℝ} (hx : 1 ≤ x) : 0 < round2 x := by
  unfold round2
  rw [round_eq]
  have h1 : (x * 100 + 1 / 2) - 1 < ((⌊x * 100 + 1 / 2⌋ : ℤ) : ℝ) :=
    Int.sub_one_lt_floor _
  have h2 : (0:ℝ) < ((⌊x * 100 + 1 / 2⌋ : ℤ) : ℝ) := by linarith
  linarith

/-- C6 counterexample: at the non-empty medicine name "constructor" the bracket lookup
hits `Object.prototype.constructor`, a truthy non-number, so the program's synthesized
price is NaN (`none` in the JS-number model) — not a rounded product of a base price
and a variation factor, and not strictly positive, as the claim asserts for every
non-empty name. -/
theorem claim_C6_counterexample :
    synthesizedPrice "constructor" 0 (1/2) = none ∧ ("constructor" : String) ≠ "" := by
  constructor
  · have hlow : toLowerStr "constructor" = "constructor" := by decide
    have hlk : MEDICINE_PRICES (toLowerStr "constructor") = PriceLookup.protoVal := by
      rw [hlow]
      unfold MEDICINE_PRICES
      simp [OBJECT_PROTOTYPE_KEYS]
    unfold synthesizedPrice
    dsimp only
    rw [hlk, jsBasePrice_protoVal]
    rfl
  · decide

/-- C6 (amended): for every medicine name and draws in `[0, 1)`, the per-pharmacy
variation factor lies in the ±5% band `[0.95, 1.05]`, and the synthesized price —
modelled faithfully as a JS number, with `none` standing for NaN — is: the rounded
product `round2(entry × factor)`, strictly positive, when the case-normalized name is
an own entry of the reference table; the rounded product over the synthetic base
`lowercasedName.length × 5` plus a jitter in `[0, 20)`, strictly positive for every
non-empty name, when the lookup is undefined; and NaN when the lowercased name hits an
inherited `Object.prototype` property (reachable ones include "constructor" and
"__proto__"), since the bracket lookup then returns a truthy non-number.  Whenever the
faithful price is a number, the pipeline's stored price field equals it.  (The base of
the undefined case uses the length of the case-normalized name as the character-wise
lowercasing model computes it; JavaScript's full Unicode case mapping may change the
length of exotic names.) -/
theorem claim_C6_amended :
    ∀ (medicineName : String) (rBase rVar : ℝ),
      0 ≤ rBase → rBase < 1 → 0 ≤ rVar → rVar < 1 →
      (0.95 ≤ 1 + (rVar - 0.5) * 0.1 ∧ 1 + (rVar - 0.5) * 0.1 ≤ 1.05) ∧
      (∀ b : ℝ, MEDICINE_PRICES (toLowerStr medicineName) = PriceLookup.ownNum b →
        synthesizedPrice medicineName rBase rVar =
          some (round2 (b * (1 + (rVar - 0.5) * 0.1))) ∧
        0 < round2 (b * (1 + (rVar - 0.5) * 0.1))) ∧
      (MEDICINE_PRICES (toLowerStr medicineName) = PriceLookup.undef →
        synthesizedPrice medicineName rBase rVar =
          some (round2 ((((toLowerStr medicineName).length : ℝ) * 5 + rBase * 20) *
            (1 + (rVar - 0.5) * 0.1))) ∧
        0 ≤ rBase * 20 ∧ rBase * 20 < 20 ∧
        (medicineName ≠ "" →
          0 < round2 ((((toLowerStr medicineName).length : ℝ) * 5 + rBase * 20) *
            (1 + (rVar - 0.5) * 0.1)))) ∧
      (MEDICINE_PRICES (toLowerStr medicineName) = PriceLookup.protoVal →
        synthesizedPrice medicineName rBase rVar = none) ∧
      (∀ (rStock : ℝ) (p : PharmacyRecord × ℝ) (y : ℝ),
        synthesizedPrice medicineName rBase rVar = some y →
        (annotate medicineName rBase rVar rStock p).price = y) := by
  intro name rBase rVar hB0 hB1 hV0 hV1
  refine ⟨⟨by linarith, by linarith⟩, ?_, ?_, ?_, ?_⟩
  · intro b hb
    have hbge : (25:ℝ) ≤ b := MEDICINE_PRICES_lower_bound hb
    have hbne : ¬b = 0 := by linarith
    constructor
    · unfold synthesizedPrice
      dsimp only
      rw [hb, jsBasePrice_ownNum, if_neg hbne]
      rfl
    · apply round2_pos
      nlinarith
  · intro h
    refine ⟨?_, by nlinarith, by nlinarith, ?_⟩
    · unfold synthesizedPrice
      dsimp only
      rw [h, jsBasePrice_undef]
      rfl
    · intro hne
      apply round2_pos
      have hlen : 1 ≤ (toLowerStr name).length :=
        Nat.one_le_iff_ne_zero.mpr (toLowerStr_ne_empty hne)
      have hlenR : (1:ℝ) ≤ ((toLowerStr name).length : ℝ) := by exact_mod_cast hlen
      nlinarith
  · intro h
    unfold synthesizedPrice
    dsimp only
    rw [h, jsBasePrice_protoVal]
    rfl
  · intro rStock p y hy
    unfold synthesizedPrice at hy
    dsimp only at hy
    rcases Option.map_eq_some'.mp hy with ⟨b, hbase, hfb⟩
    unfold annotate
    dsimp only
    rw [hbase, ← hfb]
    rfl

/-- Witness for C6 (amended) at the unknown medicine name "x" and draws 0 and 1/2. -/
theorem claim_C6_amended_witness :
    ((0:ℝ) ≤ 0 ∧ (0:ℝ) < 1 ∧ (0:ℝ) ≤ 1/2 ∧ (1/2:ℝ) < 1) ∧
    ((0.95 ≤ 1 + ((1/2 : ℝ) - 0.5) * 0.1 ∧ 1 + ((1/2 : ℝ) - 0.5) * 0.1 ≤ 1.05) ∧
      (∀ b : ℝ, MEDICINE_PRICES (toLowerStr "x") = PriceLookup.ownNum b →
        synthesizedPrice "x" 0 (1/2) =
          some (round2 (b * (1 + ((1/2 : ℝ) - 0.5) * 0.1))) ∧
        0 < round2 (b * (1 + ((1/2 : ℝ) - 0.5) * 0.1))) ∧
      (MEDICINE_PRICES (toLowerStr "x") = PriceLookup.undef →
        synthesizedPrice "x" 0 (1/2) =
          some (round2 ((((toLowerStr "x").length : ℝ) * 5 + (0:ℝ) * 20) *
            (1 + ((1/2 : ℝ) - 0.5) * 0.1))) ∧
        (0:ℝ) ≤ (0:ℝ) * 20 ∧ (0:ℝ) * 20 < 20 ∧
        (("x" : String) ≠ "" →
          0 < round2 ((((toLowerStr "x").length : ℝ) * 5 + (0:ℝ) * 20) *
            (1 + ((1/2 : ℝ) - 0.5) * 0.1)))) ∧
      (MEDICINE_PRICES (toLowerStr "x") = PriceLookup.protoVal →
        synthesizedPrice "x" 0 (1/2) = none) ∧
      (∀ (rStock : ℝ) (p : PharmacyRecord × ℝ) (y : ℝ),
        synthesizedPrice "x" 0 (1/2) = some y →
        (annotate "x" 0 (1/2) rStock p).price = y)) :=
  ⟨⟨by norm_num, by norm_num, by norm_num, by norm_num⟩,
    claim_C6_amended "x" 0 (1/2) (by norm_num) (by norm_num) (by norm_num) (by norm_num)⟩

theorem markBest_shape (l : List Pharmacy) :
    ∀ p ∈ markBest l, ∃ q ∈ l, p = q ∨ p = { q with isBestOption := true } := by
  unfold markBest
  cases h : resolveBest l with
  | none =>
    intro p hp
    exact ⟨p, hp, Or.inl rfl⟩
  | some b =>
    intro p hp
    rcases List.mem_map.mp hp with ⟨q, hq, he⟩
    by_cases hid : q.id = b.id
    · rw [if_pos hid] at he
      exact ⟨q, hq, Or.inr he.symm⟩
    · rw [if_neg hid] at he
      exact ⟨q, hq, Or.inl he.symm⟩

theorem findNearby_fields_from_dir :
    ∀ (dir : List PharmacyRecord) (userLocation : Location) (medicineName : String)
      (rBase rVar rStock : ℕ → ℝ),
      ∀ p ∈ findNearbyPharmaciesOn dir userLocation medicineName rBase rVar rStock,
        ∃ rec ∈ dir, p.id = rec.id ∧ p.name = rec.name ∧ p.address = rec.address ∧
          p.phone = rec.phone ∧ p.lat = rec.lat ∧ p.lon = rec.lon := by
  intro dir loc name rB rV rS p hp
  unfold findNearbyPharmaciesOn at hp
  obtain ⟨q, hq, hor⟩ := markBest_shape _ p hp
  unfold pharmaciesWithDetails at hq
  obtain ⟨j, x, hx, he⟩ := annotateAll_mem name rB rV rS 0 _ q hq
  have hx1 : x.1 ∈ dir := (closest_mem dir loc x hx).1
  refine ⟨x.1, hx1, ?_⟩
  rcases hor with rfl | rfl
  · rw [he]
    exact ⟨rfl, rfl, rfl, rfl, rfl, rfl⟩
  · rw [he]
    exact ⟨rfl, rfl, rfl, rfl, rfl, rfl⟩

/-- C9: the query pipeline never alters the pharmacy directory it reads — modelled as a
pure function of an arbitrary directory parameter, every result is a fresh per-query
record whose identity fields (id, name, address, phone, latitude, longitude) coincide
with those of a directory record; annotations live only on these copies. -/
theorem claim_C9_directory_immutable :
    ∀ (dir : List PharmacyRecord) (userLocation : Location) (medicineName : String)
      (rBase rVar rStock : ℕ → ℝ),
      (findNearbyPharmaciesOn dir userLocation medicineName rBase rVar rStock).Forall
        (fun p => ∃ rec ∈ dir, p.id = rec.id ∧ p.name = rec.name ∧
          p.address = rec.address ∧ p.phone = rec.phone ∧
          p.lat = rec.lat ∧ p.lon = rec.lon) := by
  intro dir loc name rB rV rS
  rw [List.forall_iff_forall_mem]
  exact findNearby_fields_from_dir dir loc name rB rV rS

/-- C10: the core query function is total and validates nothing itself — for every
location (any real coordinates), every medicine name including the empty string, and
every random draw, it returns a well-formed list of `min(10, |directory|)` results whose
stock is always one of the three defined `StockStatus` values; the empty-name guard
lives only in the caller (`handleSearch` returns early on a blank query). -/
theorem claim_C10_core_total :
    ∀ (userLocation : Location) (medicineName : String) (rBase rVar rStock : ℕ → ℝ),
      (findNearbyPharmacies userLocation medicineName rBase rVar rStock).length =
        min 10 VERIFIED_PHARMACIES_IN_BANGALORE.length ∧
      (∀ p ∈ findNearbyPharmacies userLocation medicineName rBase rVar rStock,
        p.stock = StockStatus.InStock ∨ p.stock = StockStatus.LowStock ∨
          p.stock = StockStatus.OutOfStock) ∧
      handleSearchProceeds "" = false ∧
      handleSearchProceeds "   " = false := by
  intro loc name rB rV rS
  refine ⟨?_, ?_, by decide, by decide⟩
  · unfold findNearbyPharmacies findNearbyPharmaciesOn
    rw [markBest_length]
    unfold pharmaciesWithDetails
    rw [annotateAll_length, closest_length]
  · intro p _
    cases p.stock with
    | InStock => exact Or.inl rfl
    | LowStock => exact Or.inr (Or.inl rfl)
    | OutOfStock => exact Or.inr (Or.inr rfl)
